import Mathlib

/-!
Verification of the RESP wire-protocol decoder, command dispatcher and
connection read loop of a small redis-style server (Rust sources:
`src/resp_parser/commands.rs`, `src/node/command_listener.rs`, `src/main.rs`).

Bytes are modelled as `Char` (the Rust code converts the `u8` buffer into a
`char` buffer via `u8_slice_into_char_slice` before scanning, so each byte is
one scalar value in `0..=255`).  Rust `u8` arithmetic is modelled on `Nat`
with explicit reduction `% 256` where the source wraps.  Fallible Rust code
(`Result`/`?`) is modelled with `Except`.
-/

namespace RedisClone

/-- `TCP_RESPONSE_BUFFER_SIZE` from the crate root: the fixed request-buffer
capacity.  `handle_client_connection` reads into a `[u8; 1024]` buffer and the
decoder converts the command body into a `[char; TCP_RESPONSE_BUFFER_SIZE]`
scratch array of the same size. -/
def TCP_RESPONSE_BUFFER_SIZE : Nat := 1024

/-- `TCP_READ_TIMEOUT_MAX_RETRIES` from `src/main.rs` line 16. -/
def TCP_READ_TIMEOUT_MAX_RETRIES : Nat := 3

/-- The CRLF line terminator, `LineEndings::CRLF_BYTES`. -/
def CRLF : List Char := ['\r', '\n']

/-- Error values produced by the decoder, the dispatcher and the command
handlers.  The Rust code carries these as distinct `anyhow::Error` message
strings; each distinct failure kind of §7 of the design is one constructor
here, so that distinguishability of kinds is the distinguishability of
constructors. -/
inductive RespError where
  /-- "Could not parse command: Request has byte count of 0." -/
  | emptyRequest : RespError
  /-- The various "Could not parse command: ..." structural failures. -/
  | malformedRequest (msg : String) : RespError
  /-- "Could not handle command - Unknown or not implemented command." -/
  | unsupportedCommand : RespError
  /-- A recognized command invoked with the wrong number of parameters
  (surfaced by the individual handlers). -/
  | arityError (msg : String) : RespError
  deriving DecidableEq, Repr

/-- ASCII upper-casing of one character, Rust `u8::to_ascii_uppercase` /
`str::to_ascii_uppercase` applied characterwise. -/
def toAsciiUpper (c : Char) : Char :=
  if 'a' ≤ c ∧ c ≤ 'z' then Char.ofNat (c.toNat - 32) else c

/-- Left fold turning a list of decimal digit characters into the number they
denote (the numeric core of Rust `str::parse`). -/
def digitsToNat (s : List Char) : Nat :=
  s.foldl (fun acc c => acc * 10 + (c.toNat - 48)) 0

/-- The decimal digit character of `n < 10` (used by the reference encoder). -/
def digitChar (n : Nat) : Char :=
  match n with
  | 0 => '0' | 1 => '1' | 2 => '2' | 3 => '3' | 4 => '4'
  | 5 => '5' | 6 => '6' | 7 => '7' | 8 => '8' | _ => '9'

/-- The decimal digit string of a natural number (reference encoder used to
state well-formedness of wire requests). -/
def natToDigits (n : Nat) : List Char :=
  if _h : n < 10 then [digitChar n]
  else natToDigits (n / 10) ++ [digitChar (n % 10)]
termination_by n
decreasing_by
  exact Nat.div_lt_self (by omega) (by omega)

/-- Rust `str::parse::<u8>()` on a character list: an optional leading `'+'`
sign, then one or more decimal digits, value at most 255.  (The preceding
`std::str::from_utf8` validation can only fail on non-digit bytes, which this
function rejects as well, so both failures collapse into `none`.) -/
def parseU8 (s : List Char) : Option Nat :=
  let t := if s.head? = some '+' then s.tail else s
  if t = [] then none
  else if t.all Char.isDigit then
    let n := digitsToNat t
    if n ≤ 255 then some n else none
  else none

/-- `split_u8_slice_once(buf, LineEndings::CRLF_BYTES)` from `utils`
(declaration only visible in `src`): splits the buffer at the first
occurrence of the two-byte sequence CRLF, returning the parts before and
after it, or `none` when no CRLF occurs. -/
def splitOnceCRLF : List Char → Option (List Char × List Char)
  | [] => none
  | [_] => none
  | c1 :: c2 :: rest =>
    if c1 = '\r' ∧ c2 = '\n' then some ([], rest)
    else
      match splitOnceCRLF (c2 :: rest) with
      | none => none
      | some (pre, post) => some (c1 :: pre, post)

/-- `RespCommandType` from `resp_parser::shared`.
Modelled from the spec: the data model (§3) classifies a command as an
ordinary client request versus an internal/replication command. -/
inductive RespCommandType where
  | request : RespCommandType
  | replication : RespCommandType
  deriving DecidableEq, Repr

/-- The fixed command-name constants of `RespCommandNames`
(`resp_parser::shared`), pinned by their uses in `handle_command` and the
in-repo tests. -/
def RespCommandNames.PING : List Char := "PING".toList

/-- REPLCONF command name. -/
def RespCommandNames.REPLCONF : List Char := "REPLCONF".toList

/-- PSYNC command name. -/
def RespCommandNames.PSYNC : List Char := "PSYNC".toList

/-- ECHO command name. -/
def RespCommandNames.ECHO : List Char := "ECHO".toList

/-- GET command name. -/
def RespCommandNames.GET : List Char := "GET".toList

/-- SET command name. -/
def RespCommandNames.SET : List Char := "SET".toList

/-- INFO command name. -/
def RespCommandNames.INFO : List Char := "INFO".toList

/-- `RespCommandType::from_command_name`.
Modelled from the spec: REPLCONF and PSYNC are the replication-path commands
(§4.4/§4.5); every other name is an ordinary request.  No claim depends on
the value of this tag. -/
def RespCommandType.from_command_name (name : List Char) : RespCommandType :=
  if name = RespCommandNames.REPLCONF ∨ name = RespCommandNames.PSYNC then
    RespCommandType.replication
  else
    RespCommandType.request

/-- `RespCommand` from `resp_parser::shared`: a decoded command, name
upper-cased, parameters in client order. -/
structure RespCommand where
  name : List Char
  command_type : RespCommandType
  parameters : List (List Char)
  deriving DecidableEq, Repr

/-- `move_resp_bulk_string` from `resp_parser::data_types`.
Modelled from the spec: a bulk string is "a length-prefixed byte sequence
terminated by a line break, itself preceded by a bulk-string marker" (§4.1,
glossary).  `current` is the character the caller's iterator is positioned
on and `rest` the characters after it; on success the value and the
characters after the bulk string's closing CRLF are returned, matching the
caller's convention of pulling the next current character afterwards. -/
def moveRespBulkString (current : Option Char) (rest : List Char) :
    Except RespError (List Char × List Char) :=
  if current ≠ some '$' then
    Except.error (RespError.malformedRequest "bulk string does not start with its type byte")
  else
    let digits := rest.takeWhile Char.isDigit
    let afterDigits := rest.drop digits.length
    if digits = [] then
      Except.error (RespError.malformedRequest "bulk string has no length")
    else
      match afterDigits with
      | '\r' :: '\n' :: afterLen =>
        let value := afterLen.take (digitsToNat digits)
        match afterLen.drop (digitsToNat digits) with
        | '\r' :: '\n' :: rest2 => Except.ok (value, rest2)
        | _ => Except.error (RespError.malformedRequest "bulk string value not terminated")
      | _ => Except.error (RespError.malformedRequest "bulk string length not terminated")

/-- `move_to_crlf_end` from `resp_parser::data_types`.
Modelled from the spec: advances the scan position past the next line-break
boundary, discarding the bytes up to it (§4.1).  The decoder calls it after
the last parameter and then drops the iterator, so its result never reaches
the decoded command; it is included for completeness. -/
def move_to_crlf_end : List Char → List Char
  | [] => []
  | '\r' :: '\n' :: rest => rest
  | _ :: rest => move_to_crlf_end rest

/-- The parameter loop of `parse_resp_multi_param_command_body`
(`commands.rs` lines 88-95): decode `parameter_count` bulk strings in order,
threading the iterator position through `moveRespBulkString`. -/
def parseParamsLoop : Nat → Option Char → List Char →
    Except RespError (List (List Char))
  | 0, _, _ => Except.ok []
  | Nat.succ k, cur, rest =>
    match moveRespBulkString cur rest with
    | Except.error e => Except.error e
    | Except.ok (param, rest1) =>
      match parseParamsLoop k rest1.head? rest1.tail with
      | Except.error e => Except.error e
      | Except.ok ps => Except.ok (param :: ps)

/-- `parse_resp_multi_param_command_body` (`commands.rs` lines 79-104):
decode the remaining `parameter_count` bulk strings and build the
`RespCommand`.  The source then calls `move_to_crlf_end` on the iterator and
discards it, so the trailing bytes do not reach the result. -/
def parse_resp_multi_param_command_body (command_name : List Char)
    (parameter_count : Nat) (cur : Option Char) (rest : List Char) :
    Except RespError RespCommand :=
  match parseParamsLoop parameter_count cur rest with
  | Except.error e => Except.error e
  | Except.ok parameters =>
    Except.ok { name := command_name,
                command_type := RespCommandType.from_command_name command_name,
                parameters := parameters }

/-- `parse_resp_proc_command` (`commands.rs` lines 21-77) on a connection
context whose request buffer holds `buffer` and whose byte count is
`byte_count`.  The `u8` element count is decremented with two's-complement
wrap-around (`(n + 255) % 256`), the release-profile semantics of the
source's `- 1`. -/
def parse_resp_proc_command (buffer : List Char) (byte_count : Nat) :
    Except RespError RespCommand :=
  if byte_count = 0 then
    Except.error RespError.emptyRequest
  else
    let raw_command := buffer.take byte_count
    if raw_command.head? ≠ some '*' then
      Except.error (RespError.malformedRequest "not an array")
    else
      match splitOnceCRLF raw_command with
      | none => Except.error (RespError.malformedRequest "command array malformed")
      | some (headerPart, bodyPart) =>
        if headerPart.length < 2 then
          Except.error (RespError.malformedRequest "command malformed")
        else if headerPart.take 1 ≠ ['*'] then
          Except.error (RespError.malformedRequest "the command is not an array")
        else
          let chars := bodyPart.take TCP_RESPONSE_BUFFER_SIZE ++
            List.replicate (TCP_RESPONSE_BUFFER_SIZE - bodyPart.length) '\x00'
          match moveRespBulkString chars.head? chars.tail with
          | Except.error e => Except.error e
          | Except.ok (rawName, rest1) =>
            let command_name := rawName.map toAsciiUpper
            if command_name = [] then
              Except.error (RespError.malformedRequest "command is empty")
            else
              match parseU8 (headerPart.drop 1) with
              | none => Except.error (RespError.malformedRequest "element count does not parse")
              | some n =>
                parse_resp_multi_param_command_body command_name ((n + 255) % 256)
                  rest1.head? rest1.tail

/-- Reference encoder for one bulk string: `$`, decimal byte length, CRLF,
payload, CRLF (§4.1). -/
def encodeBulk (s : List Char) : List Char :=
  '$' :: (natToDigits s.length ++ CRLF ++ s ++ CRLF)

/-- Reference encoder for a well-formed array-of-bulk-strings request:
`*`, decimal element count, CRLF, then each element as a bulk string. -/
def encodeRequest (elems : List (List Char)) : List Char :=
  '*' :: (natToDigits elems.length ++ CRLF ++ (elems.map encodeBulk).flatten)

/-- A 1024-byte connection buffer holding `request` followed by the zeroes
the listener initialises the buffer with. -/
def mkBuffer (request : List Char) : List Char :=
  request ++ List.replicate (TCP_RESPONSE_BUFFER_SIZE - request.length) '\x00'

/-- `parseParamsLoop` applied to a list through the caller's
current-character/iterator convention. -/
def parseParamsOn (k : Nat) (l : List Char) : Except RespError (List (List Char)) :=
  parseParamsLoop k l.head? l.tail

/-- The key→value entries of `InMemoryDb`.
Modelled from the spec: "an in-memory key→value mapping ... reachable by all
connection handlers under a single mutual-exclusion lock" (§2, §4.2).  Newer
entries shadow older ones, the observable behaviour of a map insert. -/
abbrev InMemoryDb := List (List Char × List Char)

/-- `set(key, value)` on the shared store (§4.2).
Modelled from the spec: stores the entry; a later `get` of the same key
observes this value. -/
def dbSet (db : InMemoryDb) (k v : List Char) : InMemoryDb :=
  (k, v) :: db

/-- `get(key) -> Option<value>` on the shared store (§4.2).
Modelled from the spec. -/
def dbGet (db : InMemoryDb) (k : List Char) : Option (List Char) :=
  (db.find? (fun e => e.1 == k)).map (fun e => e.2)

/-- The fixed PING acknowledgement, pinned by the in-repo test
`handle_command_handles_ping` (`command_listener.rs` line 181). -/
def pongReply : List Char := "+PONG\r\n".toList

/-- The simple OK acknowledgement, pinned by the in-repo test
`handle_command_handles_set_get` (`command_listener.rs` line 259). -/
def okReply : List Char := "+OK\r\n".toList

/-- The null-bulk reply for an absent key: "a dedicated null-bulk marker
distinct from an empty string" (§4.1). -/
def nullBulk : List Char := "$-1\r\n".toList

/-- `command_handlers::handle_command_ping`.
Modelled from the spec: "Replies with a fixed acknowledgement; ignores
parameters" (§4.4); the reply bytes are pinned by the in-repo test. -/
def handle_command_ping (db : InMemoryDb) (_cmd : RespCommand) :
    Except RespError (InMemoryDb × List Char) :=
  Except.ok (db, pongReply)

/-- `command_handlers::handle_command_echo`.
Modelled from the spec: "Requires exactly 1 parameter; replies with that
parameter re-encoded as a bulk string" (§4.4). -/
def handle_command_echo (db : InMemoryDb) (cmd : RespCommand) :
    Except RespError (InMemoryDb × List Char) :=
  match cmd.parameters with
  | [p] => Except.ok (db, encodeBulk p)
  | _ => Except.error (RespError.arityError "ECHO takes exactly one parameter")

/-- `command_handlers::handle_command_set_async`.
Modelled from the spec: "Requires ≥2 parameters (key, value[, expiry option,
expiry value]); stores the entry; replies with acknowledgement" (§4.4).  The
optional expiry parameters are accepted and not modelled further (spec §9
leaves their end-to-end support an open question; no claim depends on
expiry). -/
def handle_command_set_async (db : InMemoryDb) (cmd : RespCommand) :
    Except RespError (InMemoryDb × List Char) :=
  match cmd.parameters with
  | k :: v :: _rest => Except.ok (dbSet db k v, okReply)
  | _ => Except.error (RespError.arityError "SET takes at least two parameters")

/-- `command_handlers::handle_command_get_async`.
Modelled from the spec: "Requires exactly 1 parameter (key); replies with
the stored value as a bulk string, or a null-bulk reply if absent" (§4.4). -/
def handle_command_get_async (db : InMemoryDb) (cmd : RespCommand) :
    Except RespError (InMemoryDb × List Char) :=
  match cmd.parameters with
  | [k] =>
    match dbGet db k with
    | some v => Except.ok (db, encodeBulk v)
    | none => Except.ok (db, nullBulk)
  | _ => Except.error (RespError.arityError "GET takes exactly one parameter")

/-- `command_handlers::handle_command_info`.
Modelled from the spec: "Requires 0 or 1 section-name parameter; replies
with a bulk string describing role (master/replica) and replication
identifiers" (§4.4).  No claim depends on the reply's contents, only on the
handler being selected and total. -/
def handle_command_info (db : InMemoryDb) (cmd : RespCommand) :
    Except RespError (InMemoryDb × List Char) :=
  match cmd.parameters with
  | [] => Except.ok (db, encodeBulk ("role:master".toList))
  | [_s] => Except.ok (db, encodeBulk ("role:master".toList))
  | _ => Except.error (RespError.arityError "INFO takes at most one parameter")

/-- `command_handlers::handle_command_replconf`.
Modelled from the spec: "Requires ≥2 parameters (sub-command + argument(s));
replies with acknowledgement" (§4.4). -/
def handle_command_replconf (db : InMemoryDb) (cmd : RespCommand) :
    Except RespError (InMemoryDb × List Char) :=
  match cmd.parameters with
  | _ :: _ :: _ => Except.ok (db, okReply)
  | _ => Except.error (RespError.arityError "REPLCONF takes at least two parameters")

/-- `command_handlers::handle_command_psync`.
Modelled from the spec: "Requires 2 parameters ...; replies with a
full-resync status line carrying the master's replication id and offset"
(§4.4).  No claim depends on the reply's contents. -/
def handle_command_psync (db : InMemoryDb) (cmd : RespCommand) :
    Except RespError (InMemoryDb × List Char) :=
  match cmd.parameters with
  | [_a, _b] => Except.ok (db, "+FULLRESYNC ? 0\r\n".toList)
  | _ => Except.error (RespError.arityError "PSYNC takes exactly two parameters")

/-- The dispatch match of `handle_command` (`command_listener.rs` lines
113-132): select a handler by exact upper-cased name, in source order, or
fail with the unsupported-command error. -/
def run_handler (db : InMemoryDb) (cmd : RespCommand) :
    Except RespError (InMemoryDb × List Char) :=
  if cmd.name = RespCommandNames.PING then handle_command_ping db cmd
  else if cmd.name = RespCommandNames.REPLCONF then handle_command_replconf db cmd
  else if cmd.name = RespCommandNames.PSYNC then handle_command_psync db cmd
  else if cmd.name = RespCommandNames.ECHO then handle_command_echo db cmd
  else if cmd.name = RespCommandNames.GET then handle_command_get_async db cmd
  else if cmd.name = RespCommandNames.SET then handle_command_set_async db cmd
  else if cmd.name = RespCommandNames.INFO then handle_command_info db cmd
  else Except.error RespError.unsupportedCommand

/-- `handle_command` (`command_listener.rs` lines 101-135): build a context
over the request slice (`AppContext::new` records the slice as the buffer
and its length as the byte count), decode it, dispatch, and return the
response (paired here with the possibly updated store, which the source
mutates in place behind the lock). -/
def handle_command (db : InMemoryDb) (request : List Char) :
    Except RespError (InMemoryDb × List Char) :=
  match parse_resp_proc_command request request.length with
  | Except.error e => Except.error e
  | Except.ok cmd => run_handler db cmd

/-- One observable event on a connection's read loop: the bounded read
either times out (`tokio::time::timeout` returns `Err`) or yields
`data.length` bytes placed at the start of the zero-initialised 1024-byte
buffer. -/
inductive ConnEvent where
  | timeout : ConnEvent
  | readRequest (data : List Char) : ConnEvent
  deriving DecidableEq, Repr

/-- How a connection's loop stands after a trace of events. -/
inductive ConnStatus where
  /-- The loop is still running with the given retry counter. -/
  | openConn (retries : Nat) : ConnStatus
  /-- Zero-byte read: the peer closed the socket, the loop breaks cleanly. -/
  | closedOrderly : ConnStatus
  /-- The retry limit was hit on a timeout, the loop breaks. -/
  | closedTimeout : ConnStatus
  /-- `handle_command` failed and `?` propagated the error out of the loop. -/
  | errored (e : RespError) : ConnStatus
  /-- A slice index beyond the request buffer: `buffer[..byte_count + 1]`
  with `byte_count = 1024` panics. -/
  | panicked : ConnStatus
  deriving DecidableEq, Repr

/-- The slice `&request_buffer[..request_byte_count + 1]` handed to
`handle_command` (`command_listener.rs` line 87): defined only when the
end index fits the fixed 1024-byte buffer, `none` marking the
index-out-of-bounds panic. -/
def requestSlice (data : List Char) : Option (List Char) :=
  if data.length + 1 ≤ TCP_RESPONSE_BUFFER_SIZE then
    some ((data ++ List.replicate (TCP_RESPONSE_BUFFER_SIZE - data.length) '\x00').take
      (data.length + 1))
  else none

/-- The read loop of `handle_client_connection` (`command_listener.rs`
lines 53-99) over a trace of read events, threading the shared store.  On
timeout the loop breaks when the retry counter already equals
`TCP_READ_TIMEOUT_MAX_RETRIES` and increments it otherwise; a successful
read leaves the counter untouched. -/
def runConn (db : InMemoryDb) (retries : Nat) :
    List ConnEvent → ConnStatus × InMemoryDb
  | [] => (ConnStatus.openConn retries, db)
  | ConnEvent.timeout :: rest =>
    if retries = TCP_READ_TIMEOUT_MAX_RETRIES then (ConnStatus.closedTimeout, db)
    else runConn db (retries + 1) rest
  | ConnEvent.readRequest data :: rest =>
    if data.length = 0 then (ConnStatus.closedOrderly, db)
    else
      match requestSlice data with
      | none => (ConnStatus.panicked, db)
      | some slice =>
        match handle_command db slice with
        | Except.error e => (ConnStatus.errored e, db)
        | Except.ok (db2, _response) => runConn db2 retries rest

/-- One event on the listener's accept loop (`run`, `command_listener.rs`
lines 28-50): an accepted connection with its subsequent read events, or a
failed accept (logged, loop continues). -/
inductive AcceptEvent where
  | accepted (events : List ConnEvent) : AcceptEvent
  | acceptFailed : AcceptEvent
  deriving Repr

/-- The accept loop of `run`: every accepted connection is handled by a
spawned task whose result — `Ok` or `Err` — is consumed by the `match`
inside the closure (printed, never rethrown), after which the loop keeps
accepting.  Concurrent interleaving is modelled by running the handlers in
acceptance order against the shared store. -/
def listenerRun (db : InMemoryDb) :
    List AcceptEvent → List ConnStatus × InMemoryDb
  | [] => ([], db)
  | AcceptEvent.acceptFailed :: rest => listenerRun db rest
  | AcceptEvent.accepted events :: rest =>
    let out := runConn db 0 events
    let next := listenerRun out.2 rest
    (out.1 :: next.1, next.2)

/-- The read-event traces of the accepted connections, in accept order. -/
def acceptedTraces (accepts : List AcceptEvent) : List (List ConnEvent) :=
  accepts.filterMap (fun a =>
    match a with
    | AcceptEvent.accepted events => some events
    | AcceptEvent.acceptFailed => none)

/-- The wire bytes of a PING request, as in the in-repo tests. -/
def pingData : List Char := "*1\r\n$4\r\nPING\r\n".toList

/-- The error of one request-handling run, `none` when handling succeeded.
Used to state that whether (and how) `handle_command` fails is a function of
the request bytes alone, independent of the store contents. -/
def handleErr (db : InMemoryDb) (request : List Char) : Option RespError :=
  match handle_command db request with
  | Except.error e => some e
  | Except.ok _ => none

theorem digitChar_isDigit (n : Nat) (h : n < 10) : (digitChar n).isDigit = true := by
  interval_cases n <;> decide

theorem digitChar_toNat (n : Nat) (h : n < 10) : (digitChar n).toNat = 48 + n := by
  interval_cases n <;> decide

theorem natToDigits_ne_nil (n : Nat) : natToDigits n ≠ [] := by
  rw [natToDigits]
  split
  · simp
  · simp

theorem natToDigits_all_digit (n : Nat) :
    ∀ c ∈ natToDigits n, c.isDigit = true := by
  induction n using Nat.strong_induction_on with
  | _ n ih =>
    rw [natToDigits]
    split
    · intro c hc
      simp only [List.mem_singleton] at hc
      subst hc
      exact digitChar_isDigit n (by omega)
    · intro c hc
      rw [List.mem_append] at hc
      rcases hc with hc | hc
      · exact ih (n / 10) (Nat.div_lt_self (by omega) (by omega)) c hc
      · simp only [List.mem_singleton] at hc
        subst hc
        exact digitChar_isDigit _ (Nat.mod_lt _ (by omega))

theorem digitsToNat_append_digit (xs : List Char) (d : Char) :
    digitsToNat (xs ++ [d]) = digitsToNat xs * 10 + (d.toNat - 48) := by
  simp [digitsToNat, List.foldl_append]

theorem digitsToNat_natToDigits (n : Nat) : digitsToNat (natToDigits n) = n := by
  induction n using Nat.strong_induction_on with
  | _ n ih =>
    rw [natToDigits]
    split
    · rename_i h
      simp [digitsToNat, digitChar_toNat n h]
    · rename_i h
      rw [digitsToNat_append_digit, ih (n / 10) (Nat.div_lt_self (by omega) (by omega)),
        digitChar_toNat (n % 10) (Nat.mod_lt _ (by omega))]
      omega

theorem natToDigits_head_ne_plus (n : Nat) :
    (natToDigits n).head? ≠ some '+' := by
  intro h
  rcases hd : natToDigits n with _ | ⟨c, rest⟩
  · exact natToDigits_ne_nil n hd
  · rw [hd] at h
    simp only [List.head?_cons, Option.some.injEq] at h
    have := natToDigits_all_digit n c (by rw [hd]; exact List.mem_cons_self _ _)
    rw [h] at this
    exact absurd this (by decide)

theorem parseU8_natToDigits (n : Nat) (h : n ≤ 255) :
    parseU8 (natToDigits n) = some n := by
  unfold parseU8
  rw [if_neg (natToDigits_head_ne_plus n), if_neg (natToDigits_ne_nil n),
    if_pos (by simpa [List.all_eq_true] using natToDigits_all_digit n)]
  simp [digitsToNat_natToDigits, h]

theorem parseU8_natToDigits_none (n : Nat) (h : 256 ≤ n) :
    parseU8 (natToDigits n) = none := by
  unfold parseU8
  rw [if_neg (natToDigits_head_ne_plus n), if_neg (natToDigits_ne_nil n),
    if_pos (by simpa [List.all_eq_true] using natToDigits_all_digit n)]
  simp [digitsToNat_natToDigits]
  omega

theorem splitOnceCRLF_append (pre post : List Char) (hpre : '\r' ∉ pre) :
    splitOnceCRLF (pre ++ '\r' :: '\n' :: post) = some (pre, post) := by
  induction pre with
  | nil => simp [splitOnceCRLF]
  | cons a as ih =>
    have ha : a ≠ '\r' := fun h => hpre (h ▸ List.mem_cons_self a as)
    have has : '\r' ∉ as := fun h => hpre (List.mem_cons_of_mem a h)
    cases as with
    | nil =>
      simp only [List.nil_append, List.cons_append, splitOnceCRLF]
      rw [if_neg (by simp [ha])]
      simp [splitOnceCRLF]
    | cons b bs =>
      simp only [List.cons_append, splitOnceCRLF]
      rw [if_neg (by simp [ha])]
      have ih' := ih has
      rw [List.cons_append] at ih'
      simp only [List.append_eq]
      rw [ih']

theorem takeWhile_digits_append (xs : List Char) (y : Char) (ys : List Char)
    (hx : ∀ x ∈ xs, x.isDigit = true) (hy : y.isDigit = false) :
    (xs ++ y :: ys).takeWhile Char.isDigit = xs := by
  induction xs with
  | nil => simp [List.takeWhile_cons, hy]
  | cons a as ih =>
    simp only [List.cons_append, List.takeWhile_cons, hx a (List.mem_cons_self a as)]
    simp only [if_true]
    rw [ih (fun x hx' => hx x (List.mem_cons_of_mem a hx'))]

theorem moveRespBulkString_encode (s rest : List Char) :
    moveRespBulkString (some '$')
      (natToDigits s.length ++ '\r' :: '\n' :: (s ++ '\r' :: '\n' :: rest))
    = Except.ok (s, rest) := by
  unfold moveRespBulkString
  rw [if_neg (by simp)]
  have hdig : (natToDigits s.length ++ '\r' :: '\n' :: (s ++ '\r' :: '\n' :: rest)).takeWhile
      Char.isDigit = natToDigits s.length :=
    takeWhile_digits_append _ _ _ (natToDigits_all_digit s.length) (by decide)
  rw [hdig]
  rw [if_neg (natToDigits_ne_nil s.length)]
  rw [List.drop_left]
  simp only [digitsToNat_natToDigits]
  rw [List.take_left, List.drop_left]
  rfl


theorem moveRespBulkString_encodeBulk (s rest : List Char) :
    moveRespBulkString (encodeBulk s ++ rest).head? (encodeBulk s ++ rest).tail
    = Except.ok (s, rest) := by
  have h : encodeBulk s ++ rest
      = '$' :: (natToDigits s.length ++ '\r' :: '\n' :: (s ++ '\r' :: '\n' :: rest)) := by
    simp [encodeBulk, CRLF, List.append_assoc]
  rw [h]
  simp only [List.head?_cons, List.tail_cons]
  exact moveRespBulkString_encode s rest

theorem parseParamsOn_encode (elems : List (List Char)) (rest : List Char) :
    parseParamsOn elems.length ((elems.map encodeBulk).flatten ++ rest)
    = Except.ok elems := by
  induction elems generalizing rest with
  | nil => simp [parseParamsOn, parseParamsLoop]
  | cons e es ih =>
    have h : ((e :: es).map encodeBulk).flatten ++ rest
        = encodeBulk e ++ ((es.map encodeBulk).flatten ++ rest) := by
      simp [List.append_assoc]
    rw [List.length_cons, parseParamsOn, h, parseParamsLoop]
    rw [show moveRespBulkString (encodeBulk e ++ ((es.map encodeBulk).flatten ++ rest)).head?
        (encodeBulk e ++ ((es.map encodeBulk).flatten ++ rest)).tail
      = Except.ok (e, (es.map encodeBulk).flatten ++ rest) from
        moveRespBulkString_encodeBulk e _]
    have ih' := ih rest
    rw [parseParamsOn] at ih'
    simp only [ih']

theorem encodeBulk_length (s : List Char) :
    (encodeBulk s).length = (natToDigits s.length).length + s.length + 5 := by
  simp [encodeBulk, CRLF]
  omega

theorem six_le_encodeBulk_length (s : List Char) : 6 ≤ (encodeBulk s).length := by
  rw [encodeBulk_length]
  have : natToDigits s.length ≠ [] := natToDigits_ne_nil _
  have : 1 ≤ (natToDigits s.length).length := by
    cases h : natToDigits s.length with
    | nil => exact absurd h this
    | cons a l => simp
  omega

theorem flatten_encodeBulk_length (elems : List (List Char)) :
    6 * elems.length ≤ ((elems.map encodeBulk).flatten).length := by
  induction elems with
  | nil => simp
  | cons e es ih =>
    simp only [List.map_cons, List.flatten_cons, List.length_append, List.length_cons]
    have := six_le_encodeBulk_length e
    omega

/-- Decoding a reference-encoded request (with arbitrary trailing bytes
`junk`) that fits in the connection buffer: the command name is the first
element upper-cased and the parameters are the remaining elements in order;
an empty first element fails with the malformed-request error. -/
theorem parse_encode_core (name : List Char) (params : List (List Char))
    (junk : List Char)
    (hlen : (encodeRequest (name :: params)).length + junk.length ≤ 1024) :
    parse_resp_proc_command (encodeRequest (name :: params) ++ junk)
        (encodeRequest (name :: params) ++ junk).length
    = if name = [] then
        Except.error (RespError.malformedRequest "command is empty")
      else
        Except.ok { name := name.map toAsciiUpper,
                    command_type := RespCommandType.from_command_name (name.map toAsciiUpper),
                    parameters := params } := by
  have hE : encodeRequest (name :: params) ++ junk
      = ('*' :: natToDigits (params.length + 1)) ++
        '\r' :: '\n' :: (((name :: params).map encodeBulk).flatten ++ junk) := by
    simp [encodeRequest, CRLF, List.append_assoc]
  have hdigitlen : 1 ≤ (natToDigits (params.length + 1)).length := by
    cases h : natToDigits (params.length + 1) with
    | nil => exact absurd h (natToDigits_ne_nil _)
    | cons a l => simp
  have hlens : (encodeRequest (name :: params)).length
      = (natToDigits (params.length + 1)).length + 3 +
        (((name :: params).map encodeBulk).flatten).length := by
    simp only [encodeRequest, CRLF, List.length_cons, List.length_append, List.length_nil]
    omega
  have h6 : 6 * (params.length + 1) ≤ (((name :: params).map encodeBulk).flatten).length := by
    have h := flatten_encodeBulk_length (name :: params)
    simpa using h
  have hbodylen : (((name :: params).map encodeBulk).flatten).length + junk.length ≤ 1020 := by
    omega
  have hcount : params.length + 1 ≤ 255 := by omega
  -- unfold the decoder along the happy path
  unfold parse_resp_proc_command
  rw [if_neg (by rw [hE]; simp)]
  rw [List.take_length]
  rw [hE]
  rw [if_neg (by simp)]
  have hsplit : splitOnceCRLF (('*' :: natToDigits (params.length + 1)) ++
      '\r' :: '\n' :: (((name :: params).map encodeBulk).flatten ++ junk))
      = some ('*' :: natToDigits (params.length + 1),
          ((name :: params).map encodeBulk).flatten ++ junk) := by
    apply splitOnceCRLF_append
    intro hmem
    rcases List.mem_cons.mp hmem with h | h
    · exact absurd h.symm (by decide)
    · exact absurd (natToDigits_all_digit _ _ h) (by decide)
  simp only [hsplit]
  rw [if_neg (by simp only [List.length_cons]; omega)]
  rw [if_neg (by simp)]
  have htake : ((((name :: params).map encodeBulk).flatten ++ junk)).take
      TCP_RESPONSE_BUFFER_SIZE = ((name :: params).map encodeBulk).flatten ++ junk := by
    apply List.take_of_length_le
    simp only [List.length_append, TCP_RESPONSE_BUFFER_SIZE]
    omega
  rw [htake]
  have hchars : (((name :: params).map encodeBulk).flatten ++ junk) ++
      List.replicate (TCP_RESPONSE_BUFFER_SIZE -
        (((name :: params).map encodeBulk).flatten ++ junk).length) '\x00'
      = encodeBulk name ++ ((params.map encodeBulk).flatten ++
          (junk ++ List.replicate (TCP_RESPONSE_BUFFER_SIZE -
            (((name :: params).map encodeBulk).flatten ++ junk).length) '\x00')) := by
    simp [List.append_assoc]
  rw [hchars]
  have hmv := moveRespBulkString_encodeBulk name
    ((params.map encodeBulk).flatten ++
      (junk ++ List.replicate (TCP_RESPONSE_BUFFER_SIZE -
        (((name :: params).map encodeBulk).flatten ++ junk).length) '\x00'))
  simp only [hmv]
  by_cases hname : name = []
  · simp [hname]
  · have hcn : name.map toAsciiUpper ≠ [] := by
      intro h
      exact hname (List.map_eq_nil_iff.mp h)
    rw [if_neg hcn, if_neg hname]
    have hdrop : List.drop 1 ('*' :: natToDigits (params.length + 1))
        = natToDigits (params.length + 1) := rfl
    simp only [hdrop, parseU8_natToDigits _ hcount]
    simp only [parse_resp_multi_param_command_body]
    have hwrap : (params.length + 1 + 255) % 256 = params.length := by omega
    simp only [hwrap]
    have hloop := parseParamsOn_encode params
      (junk ++ List.replicate (TCP_RESPONSE_BUFFER_SIZE -
        (((name :: params).map encodeBulk).flatten ++ junk).length) '\x00')
    rw [parseParamsOn] at hloop
    simp only [hloop]

theorem natToDigits_one : natToDigits 1 = ['1'] := by
  rw [natToDigits]
  rfl

theorem natToDigits_two : natToDigits 2 = ['2'] := by
  rw [natToDigits]
  rfl

theorem natToDigits_three : natToDigits 3 = ['3'] := by
  rw [natToDigits]
  rfl

theorem natToDigits_four : natToDigits 4 = ['4'] := by
  rw [natToDigits]
  rfl

theorem natToDigits_nineteen : natToDigits 19 = ['1', '9'] := by
  rw [natToDigits]
  simp [natToDigits_one, digitChar]

theorem run_handler_set (db : InMemoryDb) (cmd : RespCommand)
    (h : cmd.name = RespCommandNames.SET) :
    run_handler db cmd = handle_command_set_async db cmd := by
  unfold run_handler
  rw [h, if_neg (by decide), if_neg (by decide), if_neg (by decide), if_neg (by decide),
    if_neg (by decide), if_pos rfl]

theorem run_handler_get (db : InMemoryDb) (cmd : RespCommand)
    (h : cmd.name = RespCommandNames.GET) :
    run_handler db cmd = handle_command_get_async db cmd := by
  unfold run_handler
  rw [h, if_neg (by decide), if_neg (by decide), if_neg (by decide), if_neg (by decide),
    if_pos rfl]

/-- C1: for every input handed to the decoder through the fixed 1024-byte
connection buffer, `parse_resp_proc_command` returns a decoded command or an
error value — it is a total function with no panicking operation — and in
particular an input declaring an element count of 0 (`"*0\r\n"`, whose count
is parsed as `u8` and decremented with wrap-around) produces an error, both
on its own and followed by a well-formed bulk string. -/
theorem c1_decoder_total (buffer : List Char) (byte_count : Nat)
    (_h1 : buffer.length = TCP_RESPONSE_BUFFER_SIZE)
    (_h2 : byte_count ≤ TCP_RESPONSE_BUFFER_SIZE) :
    ((∃ cmd, parse_resp_proc_command buffer byte_count = Except.ok cmd)
      ∨ (∃ e, parse_resp_proc_command buffer byte_count = Except.error e))
  ∧ parse_resp_proc_command (mkBuffer "*0\r\n".toList) 4
      = Except.error (RespError.malformedRequest "bulk string does not start with its type byte")
  ∧ parse_resp_proc_command (mkBuffer "*0\r\n$4\r\nPING\r\n".toList) 14
      = Except.error (RespError.malformedRequest "bulk string does not start with its type byte") := by
  refine ⟨?_, by rfl, by rfl⟩
  cases hp : parse_resp_proc_command buffer byte_count with
  | ok cmd => exact Or.inl ⟨cmd, rfl⟩
  | error e => exact Or.inr ⟨e, rfl⟩

/-- Witness for C1 at the concrete zero-count request. -/
theorem c1_witness :
    (∃ cmd, parse_resp_proc_command (mkBuffer "*0\r\n".toList) 4 = Except.ok cmd)
      ∨ (∃ e, parse_resp_proc_command (mkBuffer "*0\r\n".toList) 4 = Except.error e) :=
  (c1_decoder_total (mkBuffer "*0\r\n".toList) 4
    (by
      rw [mkBuffer, List.length_append, List.length_replicate,
        show ("*0\r\n".toList : List Char).length = 4 from rfl]
      rfl)
    (by rw [TCP_RESPONSE_BUFFER_SIZE]; omega)).1

/-- C4: a zero-length input fails with the empty-request error, a non-empty
input not starting with the array marker `'*'` fails with the distinct
malformed-request error, and the two error values are distinguishable. -/
theorem c4_empty_vs_malformed (buffer : List Char) (n : Nat) (c : Char)
    (rest : List Char) (hn : n ≠ 0) (hb : buffer = c :: rest) (hc : c ≠ '*') :
    parse_resp_proc_command buffer 0 = Except.error RespError.emptyRequest
  ∧ parse_resp_proc_command buffer n = Except.error (RespError.malformedRequest "not an array")
  ∧ RespError.emptyRequest ≠ RespError.malformedRequest "not an array" := by
  refine ⟨rfl, ?_, by simp⟩
  subst hb
  cases n with
  | zero => exact absurd rfl hn
  | succ m =>
    unfold parse_resp_proc_command
    rw [if_neg (Nat.succ_ne_zero m)]
    simp only [List.take_succ_cons, List.head?_cons]
    rw [if_pos (by simp [hc])]

/-- Witness for C4 at a concrete two-byte non-array input. -/
theorem c4_witness :
    parse_resp_proc_command ['x', 'y'] 0 = Except.error RespError.emptyRequest
  ∧ parse_resp_proc_command ['x', 'y'] 2 = Except.error (RespError.malformedRequest "not an array")
  ∧ RespError.emptyRequest ≠ RespError.malformedRequest "not an array" :=
  c4_empty_vs_malformed ['x', 'y'] 2 'x' ['y'] (by decide) rfl (by decide)

/-- C5: dispatch selects a handler by exact upper-cased name match from the
fixed set PING, REPLCONF, PSYNC, ECHO, GET, SET, INFO, and any other name
runs no handler and fails with the unsupported-command error. -/
theorem c5_dispatch_fixed_set (db : InMemoryDb) (cmd : RespCommand) :
    (cmd.name ∉ [RespCommandNames.PING, RespCommandNames.REPLCONF,
        RespCommandNames.PSYNC, RespCommandNames.ECHO, RespCommandNames.GET,
        RespCommandNames.SET, RespCommandNames.INFO] →
      run_handler db cmd = Except.error RespError.unsupportedCommand)
  ∧ (cmd.name = RespCommandNames.PING → run_handler db cmd = handle_command_ping db cmd)
  ∧ (cmd.name = RespCommandNames.REPLCONF → run_handler db cmd = handle_command_replconf db cmd)
  ∧ (cmd.name = RespCommandNames.PSYNC → run_handler db cmd = handle_command_psync db cmd)
  ∧ (cmd.name = RespCommandNames.ECHO → run_handler db cmd = handle_command_echo db cmd)
  ∧ (cmd.name = RespCommandNames.GET → run_handler db cmd = handle_command_get_async db cmd)
  ∧ (cmd.name = RespCommandNames.SET → run_handler db cmd = handle_command_set_async db cmd)
  ∧ (cmd.name = RespCommandNames.INFO → run_handler db cmd = handle_command_info db cmd) := by
  refine ⟨?_, ?_, ?_, ?_, ?_, ?_, ?_, ?_⟩
  · intro h
    simp only [List.mem_cons, List.not_mem_nil, or_false, not_or] at h
    obtain ⟨h1, h2, h3, h4, h5, h6, h7⟩ := h
    unfold run_handler
    rw [if_neg h1, if_neg h2, if_neg h3, if_neg h4, if_neg h5, if_neg h6, if_neg h7]
  · intro h
    unfold run_handler
    rw [h, if_pos rfl]
  · intro h
    unfold run_handler
    rw [h, if_neg (by decide), if_pos rfl]
  · intro h
    unfold run_handler
    rw [h, if_neg (by decide), if_neg (by decide), if_pos rfl]
  · intro h
    unfold run_handler
    rw [h, if_neg (by decide), if_neg (by decide), if_neg (by decide), if_pos rfl]
  · intro h
    unfold run_handler
    rw [h, if_neg (by decide), if_neg (by decide), if_neg (by decide), if_neg (by decide),
      if_pos rfl]
  · intro h
    unfold run_handler
    rw [h, if_neg (by decide), if_neg (by decide), if_neg (by decide), if_neg (by decide),
      if_neg (by decide), if_pos rfl]
  · intro h
    unfold run_handler
    rw [h, if_neg (by decide), if_neg (by decide), if_neg (by decide), if_neg (by decide),
      if_neg (by decide), if_neg (by decide), if_pos rfl]

/-- Witness for C5 at a name outside the fixed set. -/
theorem c5_witness :
    run_handler []
      { name := "FLUSHALL".toList,
        command_type := RespCommandType.from_command_name ("FLUSHALL".toList),
        parameters := [] } = Except.error RespError.unsupportedCommand :=
  (c5_dispatch_fixed_set [] _).1 (by decide)

/-- C9: the read loop hands the decoder the slice `buffer[..byte_count + 1]`
of its fixed 1024-byte request buffer — the read data plus one zero pad
byte — whenever `byte_count ≤ 1023`, and a read that fills the buffer
completely (`byte_count = 1024`) drives the slice index out of bounds, so
the connection's handling panics. -/
theorem c9_request_slice_bound (data : List Char) (db : InMemoryDb) (r : Nat) :
    (data.length ≤ 1023 →
      requestSlice data = some (data ++ ['\x00']))
  ∧ (data.length = 1024 →
      requestSlice data = none
      ∧ runConn db r [ConnEvent.readRequest data] = (ConnStatus.panicked, db)) := by
  constructor
  · intro h
    unfold requestSlice
    rw [if_pos (by simp only [TCP_RESPONSE_BUFFER_SIZE]; omega)]
    have ht : (data ++ List.replicate (TCP_RESPONSE_BUFFER_SIZE - data.length) '\x00').take
        (data.length + 1) = data ++ ['\x00'] := by
      rw [List.take_append_eq_append_take]
      rw [List.take_of_length_le (by omega)]
      rw [List.take_replicate]
      have hm : min (data.length + 1 - data.length)
          (TCP_RESPONSE_BUFFER_SIZE - data.length) = 1 := by
        simp only [TCP_RESPONSE_BUFFER_SIZE]
        omega
      rw [hm]
      rfl
    rw [ht]
  · intro h
    have hs : requestSlice data = none := by
      unfold requestSlice
      rw [if_neg (by simp only [TCP_RESPONSE_BUFFER_SIZE]; omega)]
    refine ⟨hs, ?_⟩
    simp only [runConn]
    rw [if_neg (by omega)]
    simp only [hs]

/-- Witness for C9 at a read that fills the whole buffer. -/
theorem c9_witness :
    requestSlice (List.replicate 1024 'a') = none
    ∧ runConn [] 0 [ConnEvent.readRequest (List.replicate 1024 'a')]
        = (ConnStatus.panicked, ([] : InMemoryDb)) :=
  (c9_request_slice_bound (List.replicate 1024 'a') [] 0).2
    (by rw [List.length_replicate])

/-- C10: a request whose declared element count does not parse as an
unsigned 8-bit decimal integer is rejected by the decoder, and the decimal
text of any count of 256 or more does not parse as `u8`, so at most 255
elements can ever be declared. -/
theorem c10_u8_element_count_limit (countText body : List Char) (m : Nat)
    (hcr : '\r' ∉ countText) (hu : parseU8 countText = none) :
    (∃ e, parse_resp_proc_command ('*' :: (countText ++ '\r' :: '\n' :: body))
        ('*' :: (countText ++ '\r' :: '\n' :: body)).length = Except.error e)
  ∧ (256 ≤ m → parseU8 (natToDigits m) = none) := by
  refine ⟨?_, fun h => parseU8_natToDigits_none m h⟩
  have hsplit : splitOnceCRLF ('*' :: (countText ++ '\r' :: '\n' :: body))
      = some ('*' :: countText, body) := by
    have h := splitOnceCRLF_append ('*' :: countText) body
      (by
        intro hmem
        rcases List.mem_cons.mp hmem with h | h
        · exact absurd h.symm (by decide)
        · exact hcr h)
    simpa using h
  cases hp : parse_resp_proc_command ('*' :: (countText ++ '\r' :: '\n' :: body))
      ('*' :: (countText ++ '\r' :: '\n' :: body)).length with
  | error e => exact ⟨e, rfl⟩
  | ok cmd =>
    exfalso
    unfold parse_resp_proc_command at hp
    rw [if_neg (by simp), List.take_length, if_neg (by simp)] at hp
    simp only [hsplit] at hp
    by_cases hct : countText = []
    · subst hct
      rw [if_pos (by simp)] at hp
      exact Except.noConfusion hp
    · have hpos : 0 < countText.length := List.length_pos.mpr hct
      rw [if_neg (by simp only [List.length_cons]; omega)] at hp
      rw [if_neg (by simp)] at hp
      split at hp
      · exact Except.noConfusion hp
      · split at hp
        · exact Except.noConfusion hp
        · simp only [List.drop_succ_cons, List.drop_zero] at hp
          rw [hu] at hp
          exact Except.noConfusion hp

/-- Witness for C10 at the declared count 256. -/
theorem c10_witness :
    (∃ e, parse_resp_proc_command
        ('*' :: ("256".toList ++ '\r' :: '\n' :: "$4\r\nPING\r\n".toList))
        ('*' :: ("256".toList ++ '\r' :: '\n' :: "$4\r\nPING\r\n".toList)).length
      = Except.error e)
  ∧ (256 ≤ 256 → parseU8 (natToDigits 256) = none) :=
  c10_u8_element_count_limit "256".toList "$4\r\nPING\r\n".toList 256
    (by decide) (by decide)

/-- C2: decoding a well-formed array-of-bulk-strings request whose first
element is non-empty yields the command whose name is that element
upper-cased and whose parameters are the remaining elements in order, with
arbitrary trailing bytes discarded; an empty first element fails with the
malformed-request error. -/
theorem c2_roundtrip_decode (name : List Char) (params : List (List Char))
    (junk : List Char)
    (hlen : (encodeRequest (name :: params)).length + junk.length ≤ 1024) :
    (name ≠ [] →
      parse_resp_proc_command (encodeRequest (name :: params) ++ junk)
          (encodeRequest (name :: params) ++ junk).length
        = Except.ok { name := name.map toAsciiUpper,
                      command_type := RespCommandType.from_command_name (name.map toAsciiUpper),
                      parameters := params })
  ∧ (name = [] →
      parse_resp_proc_command (encodeRequest (name :: params) ++ junk)
          (encodeRequest (name :: params) ++ junk).length
        = Except.error (RespError.malformedRequest "command is empty")) := by
  have h := parse_encode_core name params junk hlen
  constructor
  · intro hn
    rw [h, if_neg hn]
  · intro hn
    rw [h, if_pos hn]

/-- Witness for C2 at a one-element PING request with one junk byte. -/
theorem c2_witness :
    parse_resp_proc_command (encodeRequest ["PING".toList] ++ ['x'])
        (encodeRequest ["PING".toList] ++ ['x']).length
      = Except.ok { name := "PING".toList.map toAsciiUpper,
                    command_type :=
                      RespCommandType.from_command_name ("PING".toList.map toAsciiUpper),
                    parameters := [] } :=
  (c2_roundtrip_decode "PING".toList [] ['x']
    (by
      simp [encodeRequest, encodeBulk, CRLF, natToDigits_one, natToDigits_four,
        show ("PING".toList : List Char).length = 4 from rfl])).1
    (by decide)

/-- C6: the wire bytes of a PING request decode to the PING command with no
parameters, any casing of the 4-byte name that upper-cases to PING decodes
to the same command, and dispatching the decoded request produces the fixed
acknowledgement reply "+PONG\r\n". -/
theorem c6_ping_decode_dispatch (s : List Char) (db : InMemoryDb)
    (hs : s.map toAsciiUpper = "PING".toList) :
    parse_resp_proc_command "*1\r\n$4\r\nPING\r\n".toList 14
      = Except.ok { name := RespCommandNames.PING,
                    command_type := RespCommandType.request, parameters := [] }
  ∧ parse_resp_proc_command ("*1\r\n$4\r\n".toList ++ s ++ CRLF) 14
      = Except.ok { name := RespCommandNames.PING,
                    command_type := RespCommandType.request, parameters := [] }
  ∧ handle_command db "*1\r\n$4\r\npiNg\r\n".toList = Except.ok (db, pongReply) := by
  refine ⟨by rfl, ?_, by rfl⟩
  have h4 : s.length = 4 := by
    have h := congrArg List.length hs
    rw [List.length_map] at h
    rw [h]
    rfl
  have hsne : s ≠ [] := by
    intro h
    rw [h] at h4
    exact absurd h4 (by decide)
  have hmaster := parse_encode_core s [] [] (by
    simp [encodeRequest, encodeBulk, CRLF, h4, natToDigits_one, natToDigits_four])
  rw [if_neg hsne] at hmaster
  have hL : (encodeRequest [s] ++ []).length = 14 := by
    simp [encodeRequest, encodeBulk, CRLF, h4, natToDigits_one, natToDigits_four]
  have henc : encodeRequest [s] ++ [] = "*1\r\n$4\r\n".toList ++ s ++ CRLF := by
    rw [show ("*1\r\n$4\r\n".toList : List Char)
        = ['*', '1', '\r', '\n', '$', '4', '\r', '\n'] from rfl]
    simp [encodeRequest, encodeBulk, CRLF, h4, natToDigits_one, natToDigits_four]
  rw [hL, henc, hs] at hmaster
  exact hmaster

/-- Witness for C6 at the lower-case spelling of the name. -/
theorem c6_witness :
    parse_resp_proc_command ("*1\r\n$4\r\n".toList ++ "piNg".toList ++ CRLF) 14
      = Except.ok { name := RespCommandNames.PING,
                    command_type := RespCommandType.request, parameters := [] } :=
  (c6_ping_decode_dispatch "piNg".toList [] (by decide)).2.1

/-- C7: handling a SET of key `k` to value `v` stores the entry and replies
with the acknowledgement, a subsequent GET of `k` against the resulting
store replies with exactly `v` encoded as a bulk string, and a GET of a key
never set replies with the null-bulk reply. -/
theorem c7_set_get_roundtrip (k v : List Char) (db : InMemoryDb)
    (h1 : (encodeRequest [RespCommandNames.SET, k, v]).length ≤ 1024)
    (h2 : (encodeRequest [RespCommandNames.GET, k]).length ≤ 1024) :
    handle_command db (encodeRequest [RespCommandNames.SET, k, v])
      = Except.ok (dbSet db k v, okReply)
  ∧ handle_command (dbSet db k v) (encodeRequest [RespCommandNames.GET, k])
      = Except.ok (dbSet db k v, encodeBulk v)
  ∧ (dbGet db k = none →
      handle_command db (encodeRequest [RespCommandNames.GET, k])
        = Except.ok (db, nullBulk)) := by
  have hmS := parse_encode_core RespCommandNames.SET [k, v] [] (by simpa using h1)
  rw [if_neg (by decide)] at hmS
  rw [List.append_nil] at hmS
  rw [show RespCommandNames.SET.map toAsciiUpper = RespCommandNames.SET from by decide] at hmS
  have hmG := parse_encode_core RespCommandNames.GET [k] [] (by simpa using h2)
  rw [if_neg (by decide)] at hmG
  rw [List.append_nil] at hmG
  rw [show RespCommandNames.GET.map toAsciiUpper = RespCommandNames.GET from by decide] at hmG
  refine ⟨?_, ?_, ?_⟩
  · unfold handle_command
    simp only [hmS]
    rw [run_handler_set _ _ rfl]
    rfl
  · unfold handle_command
    simp only [hmG]
    rw [run_handler_get _ _ rfl]
    have hget : dbGet (dbSet db k v) k = some v := by
      unfold dbGet dbSet
      rw [List.find?_cons_of_pos _ (by simp)]
      rfl
    unfold handle_command_get_async
    simp only [hget]
  · intro hnone
    unfold handle_command
    simp only [hmG]
    rw [run_handler_get _ _ rfl]
    unfold handle_command_get_async
    simp only [hnone]

/-- Witness for C7 at the test vector key "foo" and value
"Hey world, I'm Joe!" against the empty store. -/
theorem c7_witness :
    handle_command []
        (encodeRequest [RespCommandNames.SET, "foo".toList, "Hey world, I'm Joe!".toList])
      = Except.ok (dbSet [] "foo".toList "Hey world, I'm Joe!".toList, okReply)
  ∧ handle_command (dbSet [] "foo".toList "Hey world, I'm Joe!".toList)
        (encodeRequest [RespCommandNames.GET, "foo".toList])
      = Except.ok (dbSet [] "foo".toList "Hey world, I'm Joe!".toList,
          encodeBulk "Hey world, I'm Joe!".toList)
  ∧ (dbGet [] "foo".toList = none →
      handle_command [] (encodeRequest [RespCommandNames.GET, "foo".toList])
        = Except.ok ([], nullBulk)) :=
  c7_set_get_roundtrip "foo".toList "Hey world, I'm Joe!".toList []
    (by
      simp [encodeRequest, encodeBulk, CRLF, natToDigits_two, natToDigits_three,
        natToDigits_nineteen, RespCommandNames.SET,
        show ("SET".toList : List Char).length = 3 from rfl,
        show ("foo".toList : List Char).length = 3 from rfl,
        show ("Hey world, I'm Joe!".toList : List Char).length = 19 from rfl])
    (by
      simp [encodeRequest, encodeBulk, CRLF, natToDigits_two, natToDigits_three,
        RespCommandNames.GET,
        show ("GET".toList : List Char).length = 3 from rfl,
        show ("foo".toList : List Char).length = 3 from rfl])

theorem runConn_append (xs ys : List ConnEvent) (db : InMemoryDb) (r : Nat) :
    runConn db r (xs ++ ys)
      = match runConn db r xs with
        | (ConnStatus.openConn r2, db2) => runConn db2 r2 ys
        | other => other := by
  induction xs generalizing db r with
  | nil => simp [runConn]
  | cons e rest ih =>
    cases e with
    | timeout =>
      simp only [List.cons_append, runConn]
      split_ifs with h
      · rfl
      · exact ih db (r + 1)
    | readRequest data =>
      simp only [List.cons_append, runConn]
      split_ifs with h
      · rfl
      · cases hs : requestSlice data with
        | none => rfl
        | some slice =>
          dsimp only
          cases hc : handle_command db slice with
          | error e => rfl
          | ok p =>
            obtain ⟨db2, resp⟩ := p
            dsimp only
            exact ih db2 r

theorem runConn_timeouts_le (k : Nat) (db : InMemoryDb) (r : Nat) (h : r + k ≤ 3) :
    runConn db r (List.replicate k ConnEvent.timeout)
      = (ConnStatus.openConn (r + k), db) := by
  induction k generalizing r with
  | zero => simp [runConn]
  | succ m ih =>
    rw [List.replicate_succ]
    simp only [runConn]
    rw [if_neg (by simp only [TCP_READ_TIMEOUT_MAX_RETRIES]; omega)]
    rw [ih (r + 1) (by omega)]
    have hc : r + 1 + m = r + (m + 1) := by omega
    rw [hc]

theorem runConn_timeouts_ge (k : Nat) (db : InMemoryDb) (r : Nat)
    (hr : r ≤ 3) (h : 4 ≤ r + k) :
    runConn db r (List.replicate k ConnEvent.timeout)
      = (ConnStatus.closedTimeout, db) := by
  induction k generalizing r with
  | zero => omega
  | succ m ih =>
    rw [List.replicate_succ]
    simp only [runConn]
    by_cases h3 : r = 3
    · rw [if_pos (by rw [TCP_READ_TIMEOUT_MAX_RETRIES]; exact h3)]
    · rw [if_neg (by rw [TCP_READ_TIMEOUT_MAX_RETRIES]; exact h3)]
      exact ih (r + 1) (by omega) (by omega)

theorem runConn_ping_step (db : InMemoryDb) (r : Nat) (rest : List ConnEvent) :
    runConn db r (ConnEvent.readRequest pingData :: rest) = runConn db r rest := rfl

/-- C3 counterexample: a connection that has timed out exactly 3 consecutive
times is still open (the loop closes only on the 4th timeout, when the
counter already equals the maximum), and the counter is not reset by a
successful read: one timeout, a successful PING read, then 3 further
timeouts close the connection even though no 3 timeouts were consecutive. -/
theorem c3_counterexample :
    (runConn [] 0 [ConnEvent.timeout, ConnEvent.timeout, ConnEvent.timeout]).1
      = ConnStatus.openConn 3
  ∧ (runConn [] 0 [ConnEvent.timeout, ConnEvent.readRequest pingData,
      ConnEvent.timeout, ConnEvent.timeout, ConnEvent.timeout]).1
      = ConnStatus.closedTimeout := ⟨rfl, rfl⟩

/-- C3 (amended): the read loop closes a connection on the 4th cumulative
read timeout — the retry counter, never reset by successful reads, must
already equal the maximum of 3 when a timeout arrives — and a connection
that reads successfully after up to 3 timeouts continues normally, its
accumulated count persisting across the successful read. -/
theorem c3_cumulative_timeout_close (a b : Nat) (db : InMemoryDb) (ha : a ≤ 3) :
    (a + b ≤ 3 →
      runConn db 0 (List.replicate a ConnEvent.timeout ++
          ConnEvent.readRequest pingData :: List.replicate b ConnEvent.timeout)
        = (ConnStatus.openConn (a + b), db))
  ∧ (4 ≤ a + b →
      runConn db 0 (List.replicate a ConnEvent.timeout ++
          ConnEvent.readRequest pingData :: List.replicate b ConnEvent.timeout)
        = (ConnStatus.closedTimeout, db)) := by
  have hpre := runConn_timeouts_le a db 0 (by omega)
  rw [Nat.zero_add] at hpre
  constructor
  · intro h
    rw [runConn_append]
    simp only [hpre]
    rw [runConn_ping_step]
    exact runConn_timeouts_le b db a (by omega)
  · intro h
    rw [runConn_append]
    simp only [hpre]
    rw [runConn_ping_step]
    exact runConn_timeouts_ge b db a (by omega) (by omega)

/-- Witness for the amended C3: one timeout, a successful read, then three
more timeouts — four cumulative, only three consecutive — close the
connection. -/
theorem c3_witness :
    runConn [] 0 (List.replicate 1 ConnEvent.timeout ++
        ConnEvent.readRequest pingData :: List.replicate 3 ConnEvent.timeout)
      = (ConnStatus.closedTimeout, ([] : InMemoryDb)) :=
  (c3_cumulative_timeout_close 1 3 [] (by omega)).2 (by omega)

theorem handleErr_db_irrelevant (request : List Char) (db1 db2 : InMemoryDb) :
    handleErr db1 request = handleErr db2 request := by
  unfold handleErr
  cases hp : parse_resp_proc_command request request.length with
  | error e => simp only [handle_command, hp]
  | ok cmd =>
    obtain ⟨nm, ct, ps⟩ := cmd
    simp only [handle_command, hp]
    unfold run_handler
    split_ifs with h1 h2 h3 h4 h5 h6 h7
    · rfl
    · unfold handle_command_replconf
      rcases ps with _ | ⟨p1, _ | ⟨p2, ps'⟩⟩ <;> rfl
    · unfold handle_command_psync
      rcases ps with _ | ⟨p1, _ | ⟨p2, _ | ⟨p3, ps'⟩⟩⟩ <;> rfl
    · unfold handle_command_echo
      rcases ps with _ | ⟨p1, _ | ⟨p2, ps'⟩⟩ <;> rfl
    · unfold handle_command_get_async
      rcases ps with _ | ⟨p1, _ | ⟨p2, ps'⟩⟩
      · rfl
      · dsimp only
        cases dbGet db1 p1 <;> cases dbGet db2 p1 <;> rfl
      · rfl
    · unfold handle_command_set_async
      rcases ps with _ | ⟨p1, _ | ⟨p2, ps'⟩⟩ <;> rfl
    · unfold handle_command_info
      rcases ps with _ | ⟨p1, _ | ⟨p2, ps'⟩⟩ <;> rfl
    · rfl

theorem runConn_status_db_irrelevant (evs : List ConnEvent) (r : Nat)
    (db1 db2 : InMemoryDb) :
    (runConn db1 r evs).1 = (runConn db2 r evs).1 := by
  induction evs generalizing r db1 db2 with
  | nil => rfl
  | cons e rest ih =>
    cases e with
    | timeout =>
      simp only [runConn]
      split_ifs with h
      · rfl
      · exact ih (r + 1) db1 db2
    | readRequest data =>
      simp only [runConn]
      split_ifs with h
      · rfl
      · cases hs : requestSlice data with
        | none => rfl
        | some slice =>
          dsimp only
          have he := handleErr_db_irrelevant slice db1 db2
          unfold handleErr at he
          cases hc1 : handle_command db1 slice with
          | error e1 =>
            rw [hc1] at he
            cases hc2 : handle_command db2 slice with
            | error e2 =>
              rw [hc2] at he
              simp only [Option.some.injEq] at he
              simp [he]
            | ok p =>
              rw [hc2] at he
              exact absurd he (by simp)
          | ok p1 =>
            cases hc2 : handle_command db2 slice with
            | error e2 =>
              rw [hc1, hc2] at he
              exact absurd he (by simp)
            | ok p2 =>
              obtain ⟨db1x, r1⟩ := p1
              obtain ⟨db2x, r2⟩ := p2
              dsimp only
              exact ih r db1x db2x

/-- C8: every accepted connection is processed by the listener no matter how
earlier connections ended — a handling error closes only its own
connection's loop — and each connection's closing status is a function of
that connection's own read events alone, independent of the shared store
state left by other connections; failed accepts are skipped and the accept
loop continues. -/
theorem c8_connection_isolation (db : InMemoryDb) (accepts : List AcceptEvent) :
    (listenerRun db accepts).1
      = (acceptedTraces accepts).map (fun evs => (runConn [] 0 evs).1) := by
  induction accepts generalizing db with
  | nil => rfl
  | cons a rest ih =>
    cases a with
    | acceptFailed =>
      simp only [listenerRun, acceptedTraces, List.filterMap_cons]
      exact ih db
    | accepted evs =>
      simp only [listenerRun, acceptedTraces, List.filterMap_cons, List.map_cons]
      congr 1
      · exact runConn_status_db_irrelevant evs 0 db []
      · exact ih (runConn db 0 evs).2

end RedisClone
